import Mathlib

/-!
Verification development for the NexDerm backend's model-training and
inference pipeline.

The definitions below are a shallow embedding of the Python sources:

* `src/backend/app/models/ml/train_model.py` — `SkinLesionDataset`,
  `VascularLesionTrainer` (dataloaders, training loop, checkpointing);
* `src/backend/app/models/ml/model.py` — `EfficientNetV2DiseaseClassifier`
  (preprocessing transform, `predict`);
* `src/backend/app/services/model_service.py` — `ModelService` singleton.

Modelling conventions:

* Python floats that are equality-compared only (transform parameters such
  as `p=0.5`, `brightness=0.2`, normalization statistics `0.485` …) are
  embedded as exact scaled integers in permille (`500`, `200`, `485` …).
* Arithmetic on accuracies and probabilities is embedded over `ℚ`, the
  exact idealisation of the float computation.
* `torch.exp` inside `torch.softmax` is abstracted as a parameter
  `e : ℚ → ℚ` that is assumed strictly positive — the only property of
  `exp` the stated results depend on.
* Fallible I/O is passed in explicitly as outcome records; a Python
  `try/except` block that swallows the error becomes a total function.
-/

/-! ## Preprocessing pipelines (train_model.py lines 144-171, model.py lines 34-40)

A torchvision transform pipeline is embedded as a list of opcodes.  Numeric
parameters are in permille (0.5 ↦ 500, 0.2 ↦ 200, 0.485 ↦ 485, …). -/

inductive TOp where
  | resize (h w : Nat)
  | randHFlip (pPermille : Nat)
  | randVFlip (pPermille : Nat)
  | randRotate (degrees : Nat)
  | colorJitter (bPermille cPermille sPermille : Nat)
  | toImage
  | toDtypeFloat32Scale
  | normalize (meanPermille stdPermille : List Nat)
  | toTensor
deriving DecidableEq, Repr

/-- Training-time pipeline built in `VascularLesionTrainer.create_dataloaders`
(train_model.py lines 145-161), in source order: resize first, then the
random augmentations, then conversion and normalization. -/
def train_transform : List TOp :=
  [TOp.resize 384 384,
   TOp.randHFlip 500,
   TOp.randVFlip 500,
   TOp.randRotate 20,
   TOp.colorJitter 200 200 200,
   TOp.toImage,
   TOp.toDtypeFloat32Scale,
   TOp.normalize [485, 456, 406] [229, 224, 225]]

/-- Validation pipeline (train_model.py lines 164-171): no random
augmentations. -/
def val_transform : List TOp :=
  [TOp.resize 384 384,
   TOp.toImage,
   TOp.toDtypeFloat32Scale,
   TOp.normalize [485, 456, 406] [229, 224, 225]]

/-- Inference-time pipeline of `EfficientNetV2DiseaseClassifier.__init__`
(model.py lines 35-40), with the default `input_size = 384`. -/
def inference_transform : List TOp :=
  [TOp.resize 384 384,
   TOp.toTensor,
   TOp.normalize [485, 456, 406] [229, 224, 225]]

/-- An opcode whose effect is randomized per call. -/
def isRandomized : TOp → Bool
  | TOp.randHFlip _ => true
  | TOp.randVFlip _ => true
  | TOp.randRotate _ => true
  | TOp.colorJitter _ _ _ => true
  | _ => false

def isResize : TOp → Bool
  | TOp.resize _ _ => true
  | _ => false

def isNormalize : TOp → Bool
  | TOp.normalize _ _ => true
  | _ => false

/-- The ordering asserted by the spec sentence behind claim C7: in the
augmented pipeline every randomized transform occurs before the
resize-to-final step and before the normalize step.  This definition
follows the spec's words; `train_transform` follows the source. -/
def specAugBeforeResizeAndNormalize (ts : List TOp) : Prop :=
  ∀ i, i < ts.length → ∀ j, j < ts.length →
    isRandomized (ts.getD i TOp.toImage) = true →
    (isResize (ts.getD j TOp.toImage) = true ∨
     isNormalize (ts.getD j TOp.toImage) = true) →
    i < j

/-! ## Shared dataset object after `random_split` (train_model.py lines 176-192)

`torch.utils.data.random_split` wraps one dataset object in two `Subset`s;
both subsets hold a reference to the *same* underlying object.  The heap is
modelled explicitly: dataset objects live in a list, a subset stores the
index of its dataset in that list, and the assignment
`val_dataset.dataset.transform = val_transform` is an update of the shared
heap cell. -/

structure PyDataset where
  transform : List TOp
deriving DecidableEq, Repr

structure TSubset where
  dsId : Nat
  indices : List Nat
deriving DecidableEq, Repr

structure SplitResult where
  heap : List PyDataset
  trainSub : TSubset
  valSub : TSubset
deriving DecidableEq, Repr

/-- Embedding of `VascularLesionTrainer.create_dataloaders` after the
dataset has been built (train_model.py lines 181-189): split sizes as in
`int(len(dataset) * (1 - val_split))`, one shared dataset object at heap
cell 0, and the in-place reassignment of its `transform` field to
`val_transform`.  (The random permutation used by `random_split` only
permutes indices and is irrelevant here; indices are taken in order.) -/
def create_dataloaders_split (n : Nat) (val_split : ℚ) : SplitResult :=
  let train_size : Nat := ((1 - val_split) * (n : ℚ)).floor.toNat
  let heap0 : List PyDataset := [{ transform := train_transform }]
  let trainSub : TSubset := { dsId := 0, indices := List.range train_size }
  let valSub : TSubset := { dsId := 0, indices := (List.range n).drop train_size }
  let heap1 := heap0.set valSub.dsId { transform := val_transform }
  { heap := heap1, trainSub := trainSub, valSub := valSub }

/-- The transform a subset's `__getitem__` applies (train_model.py lines
94-99 read `self.transform` of the underlying dataset object). -/
def subsetTransform (r : SplitResult) (s : TSubset) : List TOp :=
  (r.heap.getD s.dsId { transform := [] }).transform

/-! ## ModelService singleton (model_service.py lines 12-54)

`ModelService.__new__` is compiled to its atomic lines:

* check — line 20 `if cls._instance is None:` (branch only);
* publish — line 21 `cls._instance = super().__new__(cls)` (the fresh
  object's `classifier` attribute is still the class default `None`);
* load — line 22 `cls._instance.classifier = cls._load_model()`;
* ret — line 23 `return cls._instance`, recording whether the returned
  instance had its classifier assigned at that moment.

Two callers run this program; a schedule interleaves their steps. -/

inductive SvcPc where
  | check
  | publish
  | load
  | ret
  | done
deriving DecidableEq, Repr

structure SvcThread where
  pc : SvcPc
  obs : Option Bool
deriving DecidableEq, Repr

structure SvcGlobal where
  instPresent : Bool
  classifierSet : Bool
  loads : Nat
  t0 : SvcThread
  t1 : SvcThread
deriving DecidableEq, Repr

def svcInit : SvcGlobal :=
  { instPresent := false, classifierSet := false, loads := 0,
    t0 := { pc := SvcPc.check, obs := none },
    t1 := { pc := SvcPc.check, obs := none } }

def svcStepBody (g : SvcGlobal) (t : SvcThread) : SvcThread × SvcGlobal :=
  match t.pc with
  | SvcPc.check =>
      if g.instPresent then ({ t with pc := SvcPc.ret }, g)
      else ({ t with pc := SvcPc.publish }, g)
  | SvcPc.publish =>
      ({ t with pc := SvcPc.load },
       { g with instPresent := true, classifierSet := false })
  | SvcPc.load =>
      ({ t with pc := SvcPc.ret },
       { g with classifierSet := true, loads := g.loads + 1 })
  | SvcPc.ret =>
      ({ t with pc := SvcPc.done, obs := some g.classifierSet }, g)
  | SvcPc.done => (t, g)

def svcStep (g : SvcGlobal) (who : Bool) : SvcGlobal :=
  if who then
    let p := svcStepBody g g.t1
    { p.2 with t1 := p.1 }
  else
    let p := svcStepBody g g.t0
    { p.2 with t0 := p.1 }

def svcRun (sched : List Bool) : SvcGlobal :=
  sched.foldl svcStep svcInit

/-- The guarantee asserted by claim C4, over all interleavings: at most one
load per process, and no caller ever returns an instance whose classifier
is not yet assigned. -/
def specSingletonSafe : Prop :=
  ∀ sched : List Bool,
    (svcRun sched).loads ≤ 1 ∧
    (svcRun sched).t0.obs ≠ some false ∧
    (svcRun sched).t1.obs ≠ some false

/-- Sequential semantics of `ModelService()` calls: in single-threaded use
each call to `__new__` runs to completion before the next one starts, so a
whole call is one atomic state transition.  Returns the observed
"classifier assigned" flag of the returned instance. -/
structure SeqSvcState where
  instPresent : Bool
  classifierSet : Bool
  loads : Nat
deriving DecidableEq, Repr

def newServiceSeq (s : SeqSvcState) : Bool × SeqSvcState :=
  if s.instPresent then (s.classifierSet, s)
  else (true, { instPresent := true, classifierSet := true, loads := s.loads + 1 })

def runSeqCalls : Nat → SeqSvcState → List Bool × SeqSvcState
  | 0, s => ([], s)
  | n + 1, s =>
      let p := newServiceSeq s
      let q := runSeqCalls n p.2
      (p.1 :: q.1, q.2)

def seqSvcInit : SeqSvcState :=
  { instPresent := false, classifierSet := false, loads := 0 }


/-! ## Dataset assembly (train_model.py lines 31-99)

The filesystem is embedded abstractly: a provided directory is a name, a
list of named subfolders (each with its file names) and its own direct
file names.  Python's `str.lower()` on the ASCII names involved is
`asciiLower`. -/

def lowerChar (c : Char) : Char :=
  if 65 ≤ c.toNat && c.toNat ≤ 90 then Char.ofNat (c.toNat + 32) else c

def asciiLower (s : String) : String :=
  String.mk (s.data.map lowerChar)

/-- Embedding of `pathlib.Path.suffix`: the extension from the last dot of
the name, empty when there is no dot or the only dot is the leading
character. -/
def lastDotIdx (cs : List Char) : Option Nat :=
  (List.range cs.length).foldl
    (fun acc i => if cs.getD i ' ' = '.' then some i else acc) none

def pathSuffix (s : String) : String :=
  match lastDotIdx s.data with
  | some i => if 0 < i then String.mk (s.data.drop i) else ""
  | none => ""

/-- The case-insensitive extension check of `SkinLesionDataset.__init__`
(train_model.py lines 70, 79): suffix in `('.jpg', '.jpeg', '.png', '.bmp')`. -/
def isImageFile (f : String) : Bool :=
  let suf := asciiLower (pathSuffix f)
  suf = ".jpg" || suf = ".jpeg" || suf = ".png" || suf = ".bmp"

structure FsDir where
  name : String
  subfolders : List (String × List String)
  files : List String
deriving DecidableEq, Repr

/-- One root's contribution for one class (train_model.py lines 62-80):
first candidate is a subfolder named exactly for the class; otherwise, if
the root itself is named like the class (case-insensitively), its own
files are used. -/
def filesForClassInRoot (root : FsDir) (cls : String) : List String :=
  match root.subfolders.find? (fun p => p.1 = cls) with
  | some p => p.2.filter isImageFile
  | none =>
      if asciiLower root.name = asciiLower cls then root.files.filter isImageFile
      else []

/-- All images collected for one class across the provided roots, in root
order, before the per-class cap is applied (the `collected` list of
train_model.py lines 61-80). -/
def discoveredForClass (roots : List FsDir) (cls : String) : List String :=
  roots.flatMap (fun r => filesForClassInRoot r cls)

/-- The `self.images` accumulation loop (train_model.py lines 60-89): for
each class, in order, append up to `images_per_class` of its collected
images tagged with the class index `class_to_idx[cls]`. -/
def collectImages (roots : List FsDir) (images_per_class : Nat) :
    List String → Nat → List (String × Nat)
  | [], _ => []
  | cls :: rest, i =>
      ((discoveredForClass roots cls).take images_per_class).map (fun f => (f, i))
        ++ collectImages roots images_per_class rest (i + 1)

structure DatasetInit where
  images : List (String × Nat)
  warnings : List String
deriving DecidableEq, Repr

/-- End state of `SkinLesionDataset.__init__`: the collected image list and
the classes for which the zero-images warning was printed (train_model.py
lines 82-83). -/
def skinLesionDatasetInit (roots : List FsDir) (classes : List String)
    (images_per_class : Nat) : DatasetInit :=
  { images := collectImages roots images_per_class classes 0,
    warnings := classes.filter (fun c => (discoveredForClass roots c).isEmpty) }

/-- The empty-dataset guard of `create_dataloaders` (train_model.py lines
176-179), which runs before any training epoch: `if len(dataset) == 0:
raise ValueError(...)`. -/
def create_dataloaders_guard (roots : List FsDir) (classes : List String)
    (images_per_class : Nat) : Except String DatasetInit :=
  let d := skinLesionDatasetInit roots classes images_per_class
  if d.images.length = 0 then
    Except.error "No images found. Check data directory and class folder names."
  else
    Except.ok d

/-! ## Label table reconstruction (model_service.py lines 25-38)

`ModelService._load_model` builds a `DenseNetDiseaseClassifier` and calls
`classifier.load_from_checkpoint(model_path)`. -/

/-- Modelled from the spec: the class `DenseNetDiseaseClassifier` and its
`load_from_checkpoint` method are imported by
`src/backend/app/services/model_service.py` but are not defined anywhere
under the repository sources.  Per the spec, loading "reconstructs the
`label_table` by sorting `class_to_index` entries by index ascending" and
inverts the mapping; this stable insertion sort by index followed by a
projection to the labels is that reconstruction. -/
def insertByIdx (p : String × Nat) : List (String × Nat) → List (String × Nat)
  | [] => [p]
  | q :: rest => if p.2 < q.2 then p :: q :: rest else q :: insertByIdx p rest

/-- Modelled from the spec: the label table recovered by
`load_from_checkpoint` from a checkpoint's `class_to_index` mapping —
entries sorted by index ascending, then projected to the label strings. -/
def load_label_table (class_to_index : List (String × Nat)) : List String :=
  (class_to_index.foldr insertByIdx []).map Prod.fst

/-! ## Prediction (model.py lines 75-97)

`EfficientNetV2DiseaseClassifier.predict` guards on `self.model is None`,
then computes `softmax` over the logits and `torch.max` over the result,
returning `("disease" if pred_class == 1 else "no_disease", confidence)`.
The network forward pass is abstracted by its output logits; `torch.exp`
is abstracted by a strictly positive `e`. -/

def softmaxQ (e : ℚ → ℚ) (l : List ℚ) : List ℚ :=
  l.map (fun x => e x / (l.map e).sum)

/-- Value part of `torch.max(probs, dim=1)`. -/
def listMax : List ℚ → ℚ
  | [] => 0
  | a :: rest => rest.foldl max a

/-- Index part of `torch.max(probs, dim=1)`: the index of the first
occurrence of the maximal value (exact ties resolve to the lowest index). -/
def torchMaxIdx (l : List ℚ) : Nat :=
  l.findIdx (fun x => decide (x = listMax l))

/-- The label string chosen at model.py line 93:
`"disease" if pred_class.item() == 1 else "no_disease"`. -/
def labelOfIdx (i : Nat) : String :=
  if i = 1 then "disease" else "no_disease"

/-- The label table this binary classifier realises: output index 0 is
`"no_disease"`, output index 1 is `"disease"`. -/
def label_table : List String := ["no_disease", "disease"]

inductive PredictErr where
  | modelNotLoaded
  | unsupportedImage
deriving DecidableEq, Repr

/-- Embedding of `predict` (model.py lines 75-97).  `logitsOpt` is `none`
when `self.model is None`, in which case the guard at lines 83-84 raises
the model-not-loaded condition (`RuntimeError("Model not built. Call
build_model() first.")`) and no result is produced; otherwise it carries
the logits of the forward pass on the preprocessed image. -/
def predictModel (e : ℚ → ℚ) (logitsOpt : Option (List ℚ)) :
    Except PredictErr (String × ℚ) :=
  match logitsOpt with
  | none => Except.error PredictErr.modelNotLoaded
  | some logits =>
      let probs := softmaxQ e logits
      Except.ok (labelOfIdx (torchMaxIdx probs), listMax probs)

/-! ## Checkpoint payload (train_model.py lines 276-308) -/

structure History where
  train_loss : List ℚ
  train_acc : List ℚ
  val_loss : List ℚ
  val_acc : List ℚ
deriving DecidableEq, Repr

inductive CkptVal where
  | tensors (named : List (String × Int))
  | hist (h : History)
  | time (iso : String)
deriving DecidableEq, Repr

structure TrainerCkptState where
  model_state_dict : List (String × Int)
  optimizer_state_dict : List (String × Int)
  history : History
  timestamp : String
deriving DecidableEq, Repr

/-- The serialized bundle `save_checkpoint` passes to `torch.save`
(train_model.py lines 286-291), as the ordered key/value association the
Python dict literal denotes. -/
def save_checkpoint_payload (st : TrainerCkptState) : List (String × CkptVal) :=
  [("model_state_dict", CkptVal.tensors st.model_state_dict),
   ("optimizer_state_dict", CkptVal.tensors st.optimizer_state_dict),
   ("history", CkptVal.hist st.history),
   ("timestamp", CkptVal.time st.timestamp)]

def payloadKeys (st : TrainerCkptState) : List String :=
  (save_checkpoint_payload st).map Prod.fst

def sampleCkptState : TrainerCkptState :=
  { model_state_dict := [("classifier.1.weight", 3)],
    optimizer_state_dict := [("state.step", 1)],
    history := { train_loss := [], train_acc := [], val_loss := [], val_acc := [] },
    timestamp := "2025-01-01T00:00:00" }

/-! ## Checkpoint writes and the training loop (train_model.py lines 243-308)

`save_checkpoint` wraps every fallible step (`mkdir`, `torch.save`, the
verification `stat`) in `try/except` and returns `False` on any failure,
so it is a total `Bool`-valued function of the injected I/O outcome — a
failed write never propagates an exception into `train`. -/

structure WriteOutcome where
  mkdirRaises : Bool
  saveRaises : Bool
  verifyRaises : Bool
  fileOk : Bool
deriving DecidableEq, Repr

/-- Success of one `save_checkpoint` call (train_model.py lines 276-308):
`False` when `mkdir` raises, when `torch.save` raises, when the
verification raises, or when the written file is missing or empty;
`True` only when the file is verified present and non-empty. -/
def save_checkpoint (o : WriteOutcome) : Bool :=
  if o.mkdirRaises then false
  else if o.saveRaises then false
  else if o.verifyRaises then false
  else o.fileOk

def allWritesOk : WriteOutcome :=
  { mkdirRaises := false, saveRaises := false, verifyRaises := false, fileOk := true }

/-- One pass of the epoch loop of `VascularLesionTrainer.train`
(train_model.py lines 247-268), driven by the per-epoch validation
accuracies.  For the epoch at offset `k` with accuracy `a`:
`attempted = (a > best)` mirrors line 261, the write succeeds when the
epoch's I/O outcome does, and `best` is updated before the save exactly as
at line 262.  Returns (epochs completed, weight-update epochs applied to
the in-memory model, per-epoch best-save attempts, per-epoch successful
best writes). -/
def trainFrom (w : Nat → WriteOutcome) :
    List ℚ → Nat → ℚ → Nat × Nat × List Bool × List Bool
  | [], _, _ => (0, 0, [], [])
  | a :: rest, k, best =>
      let attempted := decide (best < a)
      let wrote := attempted && save_checkpoint (w k)
      let best2 := if best < a then a else best
      let r := trainFrom w rest (k + 1) best2
      (r.1 + 1, r.2.1 + 1, attempted :: r.2.2.1, wrote :: r.2.2.2)

structure TrainOutcome where
  epochsCompleted : Nat
  modelUpdates : Nat
  bestAttempts : List Bool
  bestWrites : List Bool
  lastWritten : Bool
deriving DecidableEq, Repr

/-- Embedding of `VascularLesionTrainer.train` (train_model.py lines
243-274): run every epoch in order starting from `best_val_acc = 0.0`,
then unconditionally attempt the `last_model.pth` write.  `w k` is the
I/O outcome of the best-checkpoint write of epoch `k`, `lastW` that of the
final write. -/
def VLtrain (valAccs : List ℚ) (w : Nat → WriteOutcome) (lastW : WriteOutcome) :
    TrainOutcome :=
  let r := trainFrom w valAccs 0 0
  { epochsCompleted := r.1,
    modelUpdates := r.2.1,
    bestAttempts := r.2.2.1,
    bestWrites := r.2.2.2,
    lastWritten := save_checkpoint lastW }

def wRoots : List FsDir :=
  [{ name := "train",
     subfolders := [("Healthy", ["a.jpg", "notes.txt"])],
     files := [] }]

def wClasses : List String := ["Healthy", "Vascular Lesions"]

/-! ## Helper lemmas -/

theorem sum_map_div_const (g : ℚ → ℚ) (c : ℚ) (l : List ℚ) :
    (l.map (fun x => g x / c)).sum = (l.map g).sum / c := by
  induction l with
  | nil => simp
  | cons a t ih => simp [ih, add_div]

theorem sum_map_nonneg (e : ℚ → ℚ) (l : List ℚ) (h : ∀ x, 0 < e x) :
    0 ≤ (l.map e).sum := by
  induction l with
  | nil => simp
  | cons a t ih => simpa using add_nonneg (h a).le ih

theorem sum_map_pos (e : ℚ → ℚ) (l : List ℚ) (h : ∀ x, 0 < e x) (hne : l ≠ []) :
    0 < (l.map e).sum := by
  cases l with
  | nil => exact absurd rfl hne
  | cons a t => simpa using add_pos_of_pos_of_nonneg (h a) (sum_map_nonneg e t h)

theorem foldl_max_init_le (l : List ℚ) (a : ℚ) : a ≤ l.foldl max a := by
  induction l generalizing a with
  | nil => simp
  | cons b t ih =>
      simpa only [List.foldl_cons] using le_trans (le_max_left a b) (ih (max a b))

theorem foldl_max_mem_le (l : List ℚ) (a x : ℚ) (hx : x ∈ l) : x ≤ l.foldl max a := by
  induction l generalizing a with
  | nil => cases hx
  | cons b t ih =>
      simp only [List.foldl_cons]
      rcases List.mem_cons.1 hx with h | h
      · subst h
        exact le_trans (le_max_right a x) (foldl_max_init_le t (max a x))
      · exact ih (max a b) h

theorem foldl_max_cases (l : List ℚ) (a : ℚ) :
    l.foldl max a = a ∨ l.foldl max a ∈ l := by
  induction l generalizing a with
  | nil => exact Or.inl rfl
  | cons b t ih =>
      simp only [List.foldl_cons]
      rcases ih (max a b) with h | h
      · rcases max_cases a b with ⟨he, _⟩ | ⟨he, _⟩
        · exact Or.inl (by rw [h, he])
        · exact Or.inr (by rw [h, he]; exact List.mem_cons_self b t)
      · exact Or.inr (List.mem_cons_of_mem b h)

theorem listMax_mem (l : List ℚ) (hne : l ≠ []) : listMax l ∈ l := by
  cases l with
  | nil => exact absurd rfl hne
  | cons a t =>
      show t.foldl max a ∈ a :: t
      rcases foldl_max_cases t a with h | h
      · rw [h]; exact List.mem_cons_self a t
      · exact List.mem_cons_of_mem a h

theorem listMax_ge (l : List ℚ) (x : ℚ) (hx : x ∈ l) : x ≤ listMax l := by
  cases l with
  | nil => cases hx
  | cons a t =>
      show x ≤ t.foldl max a
      rcases List.mem_cons.1 hx with h | h
      · subst h; exact foldl_max_init_le t x
      · exact foldl_max_mem_le t a x h

theorem softmaxQ_length (e : ℚ → ℚ) (l : List ℚ) :
    (softmaxQ e l).length = l.length := by
  simp [softmaxQ]

theorem softmaxQ_sum_eq_one (e : ℚ → ℚ) (l : List ℚ)
    (hpos : ∀ x, 0 < e x) (hne : l ≠ []) : (softmaxQ e l).sum = 1 := by
  unfold softmaxQ
  rw [sum_map_div_const]
  exact div_self (ne_of_gt (sum_map_pos e l hpos hne))

theorem softmaxQ_mem_pos (e : ℚ → ℚ) (l : List ℚ)
    (hpos : ∀ x, 0 < e x) (hne : l ≠ []) (p : ℚ) (hp : p ∈ softmaxQ e l) :
    0 < p := by
  unfold softmaxQ at hp
  rcases List.mem_map.1 hp with ⟨x, _, rfl⟩
  exact div_pos (hpos x) (sum_map_pos e l hpos hne)

theorem softmaxQ_mem_le_one (e : ℚ → ℚ) (l : List ℚ)
    (hpos : ∀ x, 0 < e x) (hne : l ≠ []) (p : ℚ) (hp : p ∈ softmaxQ e l) :
    p ≤ 1 := by
  unfold softmaxQ at hp
  rcases List.mem_map.1 hp with ⟨x, hx, rfl⟩
  refine (div_le_one (sum_map_pos e l hpos hne)).2 ?_
  exact List.single_le_sum
    (fun y hy => by
      rcases List.mem_map.1 hy with ⟨z, _, rfl⟩
      exact (hpos z).le)
    (e x) (List.mem_map_of_mem e hx)

theorem torchMaxIdx_lt (l : List ℚ) (hne : l ≠ []) : torchMaxIdx l < l.length := by
  apply List.findIdx_lt_length_of_exists
  exact ⟨listMax l, listMax_mem l hne, by simp⟩

theorem torchMaxIdx_getD (l : List ℚ) (hne : l ≠ []) :
    l.getD (torchMaxIdx l) 0 = listMax l := by
  have h : List.findIdx (fun x => decide (x = listMax l)) l < l.length :=
    torchMaxIdx_lt l hne
  show l.getD (List.findIdx (fun x => decide (x = listMax l)) l) 0 = listMax l
  rw [List.getD_eq_getElem l 0 h]
  have hp := List.findIdx_getElem (w := h)
  simpa using hp

theorem torchMaxIdx_lowest (l : List ℚ) (j : Nat) (hj : j < torchMaxIdx l) :
    l.getD j 0 ≠ listMax l := by
  have hjf : j < List.findIdx (fun x => decide (x = listMax l)) l := hj
  have hlen : j < l.length := lt_of_lt_of_le hjf (List.findIdx_le_length _)
  have hne := List.not_of_lt_findIdx hjf
  rw [List.getD_eq_getElem l 0 hlen]
  simpa using hne

theorem labelOfIdx_eq_getD (i : Nat) (hi : i < 2) :
    labelOfIdx i = label_table.getD i "" := by
  interval_cases i <;> rfl

theorem if_lt_eq_max (a b : ℚ) : (if b < a then a else b) = max b a := by
  rcases lt_or_ge b a with h | h
  · rw [if_pos h, max_eq_right h.le]
  · rw [if_neg (not_lt.2 h), max_eq_left h]

theorem trainFrom_attempts_getD (w : Nat → WriteOutcome) (accs : List ℚ) :
    ∀ (k : Nat) (best : ℚ) (i : Nat), i < accs.length →
      ((trainFrom w accs k best).2.2.1.getD i false = true ↔
        (accs.take i).foldl max best < accs.getD i 0) := by
  induction accs with
  | nil => intro k best i hi; exact absurd hi (by simp)
  | cons a rest ih =>
      intro k best i hi
      cases i with
      | zero =>
          have hunf : (trainFrom w (a :: rest) k best).2.2.1 =
              decide (best < a) ::
                (trainFrom w rest (k + 1) (if best < a then a else best)).2.2.1 := rfl
          rw [hunf]
          simp [decide_eq_true_iff]
      | succ j =>
          have hj : j < rest.length := by simpa using hi
          have H := ih (k + 1) (if best < a then a else best) j hj
          have hunf : (trainFrom w (a :: rest) k best).2.2.1 =
              decide (best < a) ::
                (trainFrom w rest (k + 1) (if best < a then a else best)).2.2.1 := rfl
          rw [hunf, List.getD_cons_succ, List.take_succ_cons, List.foldl_cons,
            List.getD_cons_succ, ← if_lt_eq_max]
          exact H

theorem trainFrom_writes_eq_attempts (w : Nat → WriteOutcome)
    (hok : ∀ k, save_checkpoint (w k) = true) (accs : List ℚ) :
    ∀ (k : Nat) (best : ℚ),
      (trainFrom w accs k best).2.2.2 = (trainFrom w accs k best).2.2.1 := by
  induction accs with
  | nil => intro k best; rfl
  | cons a rest ih =>
      intro k best
      show (decide (best < a) && save_checkpoint (w k)) ::
            (trainFrom w rest (k + 1) (if best < a then a else best)).2.2.2 =
          decide (best < a) ::
            (trainFrom w rest (k + 1) (if best < a then a else best)).2.2.1
      rw [hok k, Bool.and_true, ih (k + 1) (if best < a then a else best)]

theorem trainFrom_counts (w : Nat → WriteOutcome) (accs : List ℚ) :
    ∀ (k : Nat) (best : ℚ),
      (trainFrom w accs k best).1 = accs.length ∧
      (trainFrom w accs k best).2.1 = accs.length := by
  induction accs with
  | nil => intro k best; exact ⟨rfl, rfl⟩
  | cons a rest ih =>
      intro k best
      have H := ih (k + 1) (if best < a then a else best)
      exact ⟨by show (trainFrom w rest _ _).1 + 1 = rest.length + 1; rw [H.1],
             by show (trainFrom w rest _ _).2.1 + 1 = rest.length + 1; rw [H.2]⟩

theorem trainFrom_attempts_indep (accs : List ℚ) :
    ∀ (w w' : Nat → WriteOutcome) (k k' : Nat) (best : ℚ),
      (trainFrom w accs k best).2.2.1 = (trainFrom w' accs k' best).2.2.1 := by
  induction accs with
  | nil => intro w w' k k' best; rfl
  | cons a rest ih =>
      intro w w' k k' best
      show decide (best < a) :: (trainFrom w rest (k + 1) _).2.2.1 =
          decide (best < a) :: (trainFrom w' rest (k' + 1) _).2.2.1
      rw [ih w w' (k + 1) (k' + 1) (if best < a then a else best)]

theorem runSeqCalls_loaded (m : Nat) (s : SeqSvcState)
    (h1 : s.instPresent = true) (h2 : s.classifierSet = true) :
    runSeqCalls m s = (List.replicate m true, s) := by
  induction m with
  | zero => rfl
  | succ k ih =>
      have hnew : newServiceSeq s = (true, s) := by
        unfold newServiceSeq
        rw [h1, if_pos rfl, h2]
      show (let p := newServiceSeq s
            let q := runSeqCalls k p.2
            (p.1 :: q.1, q.2)) = _
      rw [hnew]
      simp only [ih, List.replicate_succ]

theorem collectImages_eq_nil (roots : List FsDir) (cap : Nat) (hcap : 0 < cap)
    (classes : List String) :
    ∀ i : Nat, (collectImages roots cap classes i = [] ↔
      ∀ c ∈ classes, discoveredForClass roots c = []) := by
  induction classes with
  | nil => intro i; simp [collectImages]
  | cons c rest ih =>
      intro i
      simp only [collectImages, List.append_eq_nil, List.map_eq_nil_iff,
        List.take_eq_nil_iff, ih (i + 1), List.forall_mem_cons, hcap.ne',
        false_or]

/-! ## Claim theorems -/

/-- C1 counterexample: at a concrete trainer state, the bundle written by
`save_checkpoint` contains neither a `weights` key nor a `class_to_index`
key, contrary to the claim that both are present. -/
theorem save_checkpoint_keys_cex :
    ¬ ("weights" ∈ payloadKeys sampleCkptState ∧
       "class_to_index" ∈ payloadKeys sampleCkptState) := by
  decide

/-- C1 (amended): every bundle written by `save_checkpoint` is a single
serialized bundle whose keys are exactly `model_state_dict`,
`optimizer_state_dict`, `history`, `timestamp`; in particular it never
contains `weights` or `class_to_index` keys. -/
theorem save_checkpoint_keys (st : TrainerCkptState) :
    payloadKeys st =
      ["model_state_dict", "optimizer_state_dict", "history", "timestamp"] ∧
    "weights" ∉ payloadKeys st ∧
    "class_to_index" ∉ payloadKeys st := by
  have h : payloadKeys st =
      ["model_state_dict", "optimizer_state_dict", "history", "timestamp"] := rfl
  refine ⟨h, ?_, ?_⟩ <;> rw [h] <;> decide

/-- C2: the label table reconstructed from a checkpoint's `class_to_index`
is its inverse sorted by index ascending: for
`{"benign": 0, "malignant": 1}` (in either enumeration order) the table is
`["benign", "malignant"]`, index 0 maps back to `"benign"`, and the table
has one entry per class. -/
theorem load_label_table_roundtrip :
    load_label_table [("benign", 0), ("malignant", 1)] = ["benign", "malignant"] ∧
    (load_label_table [("benign", 0), ("malignant", 1)]).getD 0 "" = "benign" ∧
    (load_label_table [("malignant", 1), ("benign", 0)]).getD 0 "" = "benign" ∧
    (load_label_table [("benign", 0), ("malignant", 1)]).length = 2 := by
  exact ⟨rfl, rfl, rfl, rfl⟩

/-- C3: whenever `predict` runs on a loaded model (any length-2 logit
vector, any strictly positive exponential), the softmax output is a
length-2 probability vector summing exactly to 1, the returned confidence
is its maximum and lies in `[0, 1]`, the selected index is the lowest
index attaining the maximum, and the returned label is that index's entry
of the label table. -/
theorem predict_softmax_argmax (e : ℚ → ℚ) (logits : List ℚ)
    (hpos : ∀ x, 0 < e x) (hlen : logits.length = 2) :
    predictModel e (some logits) =
      Except.ok (label_table.getD (torchMaxIdx (softmaxQ e logits)) "",
                 listMax (softmaxQ e logits)) ∧
    (softmaxQ e logits).length = 2 ∧
    (softmaxQ e logits).sum = 1 ∧
    0 ≤ listMax (softmaxQ e logits) ∧
    listMax (softmaxQ e logits) ≤ 1 ∧
    torchMaxIdx (softmaxQ e logits) < 2 ∧
    (softmaxQ e logits).getD (torchMaxIdx (softmaxQ e logits)) 0 =
      listMax (softmaxQ e logits) ∧
    (∀ j, j < 2 → (softmaxQ e logits).getD j 0 ≤ listMax (softmaxQ e logits)) ∧
    (∀ j, j < torchMaxIdx (softmaxQ e logits) →
      (softmaxQ e logits).getD j 0 < listMax (softmaxQ e logits)) := by
  have hne : logits ≠ [] := by
    intro h
    rw [h] at hlen
    exact absurd hlen (by decide)
  have hplen : (softmaxQ e logits).length = 2 := by
    rw [softmaxQ_length, hlen]
  have hpne : softmaxQ e logits ≠ [] := by
    intro h
    rw [h] at hplen
    exact absurd hplen (by decide)
  have hmaxmem : listMax (softmaxQ e logits) ∈ softmaxQ e logits :=
    listMax_mem _ hpne
  have hidx : torchMaxIdx (softmaxQ e logits) < 2 := by
    have := torchMaxIdx_lt _ hpne
    rwa [hplen] at this
  have hle : ∀ j, j < 2 →
      (softmaxQ e logits).getD j 0 ≤ listMax (softmaxQ e logits) := by
    intro j hj
    have hj' : j < (softmaxQ e logits).length := by rwa [hplen]
    rw [List.getD_eq_getElem _ 0 hj']
    exact listMax_ge _ _ (List.getElem_mem hj')
  refine ⟨?_, hplen, softmaxQ_sum_eq_one e logits hpos hne,
    (softmaxQ_mem_pos e logits hpos hne _ hmaxmem).le,
    softmaxQ_mem_le_one e logits hpos hne _ hmaxmem,
    hidx, torchMaxIdx_getD _ hpne, hle, ?_⟩
  · show Except.ok (labelOfIdx (torchMaxIdx (softmaxQ e logits)),
        listMax (softmaxQ e logits)) = _
    rw [labelOfIdx_eq_getD _ hidx]
  · intro j hj
    have hj2 : j < 2 := lt_trans hj hidx
    exact lt_of_le_of_ne (hle j hj2) (torchMaxIdx_lowest _ j hj)

/-- C3 witness: the theorem instantiated at logits `[2, -1]` with the
constant positive exponential, for which both softmax entries tie and the
tie resolves to index 0, label `"no_disease"`. -/
theorem predict_softmax_argmax_witness :
    predictModel (fun _ => (1 : ℚ)) (some [2, -1]) =
      Except.ok
        (label_table.getD (torchMaxIdx (softmaxQ (fun _ => (1 : ℚ)) [2, -1])) "",
         listMax (softmaxQ (fun _ => (1 : ℚ)) [2, -1])) ∧
    (softmaxQ (fun _ => (1 : ℚ)) [2, -1]).length = 2 ∧
    (softmaxQ (fun _ => (1 : ℚ)) [2, -1]).sum = 1 ∧
    0 ≤ listMax (softmaxQ (fun _ => (1 : ℚ)) [2, -1]) ∧
    listMax (softmaxQ (fun _ => (1 : ℚ)) [2, -1]) ≤ 1 ∧
    torchMaxIdx (softmaxQ (fun _ => (1 : ℚ)) [2, -1]) < 2 ∧
    (softmaxQ (fun _ => (1 : ℚ)) [2, -1]).getD
        (torchMaxIdx (softmaxQ (fun _ => (1 : ℚ)) [2, -1])) 0 =
      listMax (softmaxQ (fun _ => (1 : ℚ)) [2, -1]) ∧
    (∀ j, j < 2 → (softmaxQ (fun _ => (1 : ℚ)) [2, -1]).getD j 0 ≤
      listMax (softmaxQ (fun _ => (1 : ℚ)) [2, -1])) ∧
    (∀ j, j < torchMaxIdx (softmaxQ (fun _ => (1 : ℚ)) [2, -1]) →
      (softmaxQ (fun _ => (1 : ℚ)) [2, -1]).getD j 0 <
        listMax (softmaxQ (fun _ => (1 : ℚ)) [2, -1])) :=
  predict_softmax_argmax (fun _ => 1) [2, -1] (fun _ => one_pos) rfl

/-- C4 counterexample: `ModelService.__new__` has no mutual exclusion and
assigns `cls._instance` before `cls._instance.classifier`.  Under the
schedule `[false, false, true, true]` the second caller returns an
instance whose classifier is not yet assigned (a half-built observation),
and under `[false, true, false, false, true, true]` the expensive load
runs twice; hence the claimed guarantee fails. -/
theorem modelService_singleton_cex :
    (svcRun [false, false, true, true]).t1.obs = some false ∧
    (svcRun [false, true, false, false, true, true]).loads = 2 ∧
    ¬ specSingletonSafe := by
  refine ⟨by decide, by decide, fun h => ?_⟩
  exact absurd (h [false, true, false, false, true, true]).1 (by decide)

/-- C4 (amended): under sequential execution — each `ModelService()` call
running to completion before the next — any number of constructions yields
exactly one `_load_model` execution and every caller observes a fully
loaded classifier; the original claim's guarantee under concurrent first
access does not hold (see the counterexample). -/
theorem modelService_seq_singleton (n : Nat) (hn : 1 ≤ n) :
    (runSeqCalls n seqSvcInit).2.loads = 1 ∧
    ∀ b ∈ (runSeqCalls n seqSvcInit).1, b = true := by
  cases n with
  | zero => exact absurd hn (by decide)
  | succ m =>
      have hrep := runSeqCalls_loaded m
        { instPresent := true, classifierSet := true, loads := 1 } rfl rfl
      have hstep : runSeqCalls (m + 1) seqSvcInit =
          (true :: (runSeqCalls m
              { instPresent := true, classifierSet := true, loads := 1 }).1,
           (runSeqCalls m
              { instPresent := true, classifierSet := true, loads := 1 }).2) := rfl
      rw [hstep, hrep]
      refine ⟨rfl, ?_⟩
      intro b hb
      rcases List.mem_cons.1 hb with h | h
      · exact h
      · exact List.eq_of_mem_replicate h

/-- C4 witness: three sequential constructions — one load, all callers see
a fully loaded classifier. -/
theorem modelService_seq_singleton_witness :
    (runSeqCalls 3 seqSvcInit).2.loads = 1 ∧
    ∀ b ∈ (runSeqCalls 3 seqSvcInit).1, b = true :=
  modelService_seq_singleton 3 (by decide)

/-- C5: in a run whose checkpoint writes all succeed, the epoch-`i`
`best_model.pth` write happens iff epoch `i`'s validation accuracy
strictly exceeds the best validation accuracy seen so far in the run
(starting from the initial `best_val_acc = 0.0`), and `last_model.pth` is
written unconditionally after the final epoch. -/
theorem train_best_checkpoint_policy (valAccs : List ℚ) (w : Nat → WriteOutcome)
    (lastW : WriteOutcome) (i : Nat)
    (hok : ∀ k, save_checkpoint (w k) = true)
    (hlast : save_checkpoint lastW = true)
    (hi : i < valAccs.length) :
    ((VLtrain valAccs w lastW).bestWrites.getD i false = true ↔
      (valAccs.take i).foldl max 0 < valAccs.getD i 0) ∧
    (VLtrain valAccs w lastW).lastWritten = true := by
  constructor
  · show ((trainFrom w valAccs 0 0).2.2.2.getD i false = true ↔ _)
    rw [trainFrom_writes_eq_attempts w hok valAccs 0 0]
    exact trainFrom_attempts_getD w valAccs 0 0 i hi
  · exact hlast

/-- C5 witness: accuracies `[1, 0, 2]` with all writes succeeding — the
epoch-2 best write happens because `2` exceeds the best-so-far `1`, and
the final write happens. -/
theorem train_best_checkpoint_policy_witness :
    ((VLtrain [1, 0, 2] (fun _ => allWritesOk) allWritesOk).bestWrites.getD 2 false
        = true ↔
      (([1, 0, 2] : List ℚ).take 2).foldl max 0 < ([1, 0, 2] : List ℚ).getD 2 0) ∧
    (VLtrain [1, 0, 2] (fun _ => allWritesOk) allWritesOk).lastWritten = true :=
  train_best_checkpoint_policy [1, 0, 2] (fun _ => allWritesOk) allWritesOk 2
    (fun _ => rfl) rfl (by decide)

/-- C6: checkpoint write failures are absorbed inside `save_checkpoint`
(which returns `False` instead of raising), so for every choice of
per-epoch write outcomes the run completes all its epochs, the in-memory
model receives all `N` epochs of weight updates, and the best-checkpoint
attempt pattern is identical to that of a run whose writes all succeed. -/
theorem train_continues_after_write_failure (valAccs : List ℚ)
    (w w' : Nat → WriteOutcome) (lastW lastW' : WriteOutcome) :
    (VLtrain valAccs w lastW).epochsCompleted = valAccs.length ∧
    (VLtrain valAccs w lastW).modelUpdates = valAccs.length ∧
    (VLtrain valAccs w lastW).bestAttempts =
      (VLtrain valAccs w' lastW').bestAttempts := by
  refine ⟨(trainFrom_counts w valAccs 0 0).1, (trainFrom_counts w valAccs 0 0).2, ?_⟩
  exact trainFrom_attempts_indep valAccs w w' 0 0 0

/-- C7 counterexample: the training pipeline applies `Resize((384, 384))`
first and the randomized transforms after it, so the spec's claimed
ordering (randomized transforms before the resize-to-final step) is false
of `train_transform`. -/
theorem train_transform_spec_order_cex :
    ¬ specAugBeforeResizeAndNormalize train_transform := by
  unfold specAugBeforeResizeAndNormalize
  decide

/-- C7 (amended): when `augment` is on, the pipeline applies — after the
resize-to-final step and before the normalize step — randomized horizontal
flip `p=0.5`, vertical flip `p=0.5`, rotation up to ±20°, and a ±20%
brightness/contrast/saturation color jitter; the validation and inference
pipelines contain no randomized transform. -/
theorem train_transform_augmentation_order :
    train_transform.getD 0 TOp.toImage = TOp.resize 384 384 ∧
    TOp.randHFlip 500 ∈ train_transform ∧
    TOp.randVFlip 500 ∈ train_transform ∧
    TOp.randRotate 20 ∈ train_transform ∧
    TOp.colorJitter 200 200 200 ∈ train_transform ∧
    (∀ i, i < train_transform.length → ∀ j, j < train_transform.length →
      isResize (train_transform.getD i TOp.toImage) = true →
      isRandomized (train_transform.getD j TOp.toImage) = true → i < j) ∧
    (∀ i, i < train_transform.length → ∀ j, j < train_transform.length →
      isRandomized (train_transform.getD i TOp.toImage) = true →
      isNormalize (train_transform.getD j TOp.toImage) = true → i < j) ∧
    (∀ op ∈ val_transform, isRandomized op = false) ∧
    (∀ op ∈ inference_transform, isRandomized op = false) := by
  decide

/-- C8: after `create_dataloaders` returns, the train and validation
subsets reference the same heap cell, that shared dataset object's
transform has been reassigned to `val_transform`, and hence the transform
the training subset's `__getitem__` applies contains no randomized
augmentation. -/
theorem create_dataloaders_shared_transform (n : Nat) (v : ℚ) :
    (create_dataloaders_split n v).trainSub.dsId =
      (create_dataloaders_split n v).valSub.dsId ∧
    subsetTransform (create_dataloaders_split n v)
      ((create_dataloaders_split n v).trainSub) = val_transform ∧
    subsetTransform (create_dataloaders_split n v)
      ((create_dataloaders_split n v).valSub) = val_transform ∧
    (∀ op ∈ subsetTransform (create_dataloaders_split n v)
        ((create_dataloaders_split n v).trainSub), isRandomized op = false) := by
  have ht : subsetTransform (create_dataloaders_split n v)
      ((create_dataloaders_split n v).trainSub) = val_transform := rfl
  refine ⟨rfl, ht, rfl, ?_⟩
  intro op hop
  rw [ht] at hop
  revert op
  decide

/-- C9: calling `predict` with no loaded model hits the explicit guard of
model.py lines 83-84 and fails with the named model-not-loaded condition;
no prediction result is produced. -/
theorem predict_before_load_errors :
    ∀ e : ℚ → ℚ,
      predictModel e none = Except.error PredictErr.modelNotLoaded ∧
      ∀ r : String × ℚ, predictModel e none ≠ Except.ok r := by
  intro e
  exact ⟨rfl, fun r h => Except.noConfusion h⟩

/-- C10: with a positive per-class cap, the empty-dataset guard of
`create_dataloaders` fails the run (before any epoch) exactly when zero
images were discovered for every class; a class with zero discovered
images is recorded in the warning list, and as long as some class has
images the guard lets the run proceed. -/
theorem empty_dataset_guard_policy (roots : List FsDir) (classes : List String)
    (images_per_class : Nat) (hcap : 0 < images_per_class) :
    ((create_dataloaders_guard roots classes images_per_class =
        Except.error "No images found. Check data directory and class folder names.") ↔
      ∀ c ∈ classes, discoveredForClass roots c = []) ∧
    (∀ c ∈ classes, discoveredForClass roots c = [] →
      c ∈ (skinLesionDatasetInit roots classes images_per_class).warnings) ∧
    (∀ c, c ∈ classes → discoveredForClass roots c ≠ [] →
      create_dataloaders_guard roots classes images_per_class =
        Except.ok (skinLesionDatasetInit roots classes images_per_class)) := by
  have hnil := collectImages_eq_nil roots images_per_class hcap classes 0
  refine ⟨?_, ?_, ?_⟩
  · unfold create_dataloaders_guard
    by_cases h : (skinLesionDatasetInit roots classes images_per_class).images.length = 0
    · rw [if_pos h]
      constructor
      · intro _
        exact hnil.1 (List.length_eq_zero.1 h)
      · intro _
        rfl
    · rw [if_neg h]
      constructor
      · intro heq
        exact absurd heq (by simp)
      · intro hall
        exact absurd (congrArg List.length (hnil.2 hall)) h
  · intro c hc hdisc
    show c ∈ classes.filter (fun c => (discoveredForClass roots c).isEmpty)
    refine List.mem_filter.2 ⟨hc, ?_⟩
    rw [hdisc]
    rfl
  · intro c hc hne
    have h0 : ¬ (skinLesionDatasetInit roots classes images_per_class).images.length = 0 :=
      fun h => hne (hnil.1 (List.length_eq_zero.1 h) c hc)
    unfold create_dataloaders_guard
    rw [if_neg h0]

/-- C10 witness: a root containing one image for `Healthy` and nothing for
`Vascular Lesions`, with the default cap of 50. -/
theorem empty_dataset_guard_policy_witness :
    ((create_dataloaders_guard wRoots wClasses 50 =
        Except.error "No images found. Check data directory and class folder names.") ↔
      ∀ c ∈ wClasses, discoveredForClass wRoots c = []) ∧
    (∀ c ∈ wClasses, discoveredForClass wRoots c = [] →
      c ∈ (skinLesionDatasetInit wRoots wClasses 50).warnings) ∧
    (∀ c, c ∈ wClasses → discoveredForClass wRoots c ≠ [] →
      create_dataloaders_guard wRoots wClasses 50 =
        Except.ok (skinLesionDatasetInit wRoots wClasses 50)) :=
  empty_dataset_guard_policy wRoots wClasses 50 (by decide)
